import Mathlib

/-!
Verification development for the Lisp runtime of the try-tauri repository
(src/tauri/src/lisp.rs, lisp/parser.rs, lisp/env.rs, lisp/eval.rs, lisp/gc.rs).

The Rust sources are shallowly embedded as executable Lean definitions:
shared mutable environments (Arc of Mutex of Env) become a store of frames
indexed by frame id, machine integers i64 become Int (the claims under
study do not exercise i64 overflow), f64 doubles become Rat (the claims
only exercise exactly representable dyadic values such as 1.5), and the
externally owned geometry payloads of Model are opaque constructors, since
the geometry kernel is outside the language core. Recursive evaluation is
given a fuel parameter, decremented on every call, standing in for the
unbounded recursion of the Rust evaluator.
-/

namespace TryTauri

/-- Model objects held in the object store (env.rs, enum Model).  The
geometry payloads (points, vertices, meshes, ...) are externally owned and
never inspected by the language core, so they are modelled as bare
constructors. -/
inductive Model where
  | point3
  | vertex
  | edge
  | wire
  | face
  | shell
  | solid
  | mesh
deriving DecidableEq, Repr

/-- Expressions (parser.rs, enum Expr).  Each syntactic node carries an
optional source offset and a trailing-newline flag exactly as in the
source.  Closure and Macro values reference their captured environment by
frame id into the global state; Builtin and SpecialForm values are
identified by the registered name, with dispatch on that name in the
evaluator standing in for the Rust function pointer. -/
inductive Expr where
  | symbol (name : String) (location : Option Nat) (trailingNewline : Bool)
  | list (elements : List Expr) (location : Option Nat) (trailingNewline : Bool)
  | integer (value : Int) (location : Option Nat) (trailingNewline : Bool)
  | string (value : String) (location : Option Nat) (trailingNewline : Bool)
  | double (value : Rat) (location : Option Nat) (trailingNewline : Bool)
  | model (id : Nat) (location : Option Nat) (trailingNewline : Bool)
  | quote (expr : Expr) (location : Option Nat) (trailingNewline : Bool)
  | quasiquote (expr : Expr) (location : Option Nat) (trailingNewline : Bool)
  | unquote (expr : Expr) (location : Option Nat) (trailingNewline : Bool)
  | builtin (name : String)
  | specialForm (name : String)
  | clausure (args : List String) (body : Expr) (env : Nat)
  | macroV (args : List String) (body : Expr) (env : Nat)

/-- Host-visible values (elm.rs, enum Value). -/
inductive Value where
  | integer (v : Int)
  | double (v : Rat)
  | stl (id : Nat)
  | string (s : String)
  | symbol (s : String)
  | list (vs : List Value)

/-- Result bundle of eval_exprs (elm.rs, struct Evaled): the cast result
value, the ids of the mesh objects currently in the root frame store
(their serialized payloads are external), and the preview id list. -/
structure Evaled where
  value : Value
  polys : List Nat
  previews : List Nat

/-- Smart constructor mirroring Expr::symbol. -/
def symE (name : String) : Expr := .symbol name none false

/-- Smart constructor mirroring Expr::integer. -/
def intE (v : Int) : Expr := .integer v none false

/-- Smart constructor mirroring Expr::double. -/
def dblE (v : Rat) : Expr := .double v none false

/-- Smart constructor mirroring Expr::string. -/
def strE (s : String) : Expr := .string s none false

/-- Smart constructor mirroring Expr::model. -/
def mdlE (id : Nat) : Expr := .model id none false

/-- Smart constructor mirroring Expr::list. -/
def lstE (elements : List Expr) : Expr := .list elements none false

/-- Mirrors Expr::is_symbol. -/
def isSymbol (e : Expr) (n : String) : Bool :=
  match e with
  | .symbol name _ _ => name == n
  | _ => false

/-- Mirrors Expr::as_symbol. -/
def asSymbol (e : Expr) : Except String String :=
  match e with
  | .symbol name _ _ => .ok name
  | _ => .error "Not a symbol"

/-- Mirrors Expr::location. -/
def exprLocation (e : Expr) : Option Nat :=
  match e with
  | .symbol _ l _ => l
  | .list _ l _ => l
  | .integer _ l _ => l
  | .string _ l _ => l
  | .double _ l _ => l
  | .model _ l _ => l
  | .quote _ l _ => l
  | .quasiquote _ l _ => l
  | .unquote _ l _ => l
  | _ => none

/-- Mirrors Expr::has_newline. -/
def hasNewline (e : Expr) : Bool :=
  match e with
  | .symbol _ _ t => t
  | .list _ _ t => t
  | .integer _ _ t => t
  | .string _ _ t => t
  | .double _ _ t => t
  | .model _ _ t => t
  | .quote _ _ t => t
  | .quasiquote _ _ t => t
  | .unquote _ _ t => t
  | _ => false

mutual

/-- Mirrors parser.rs cast_evaled. -/
def castEvaled : Expr → Value
  | .integer v _ _ => .integer v
  | .double v _ _ => .double v
  | .model id _ _ => .stl id
  | .string s _ _ => .string s
  | .symbol n _ _ => .symbol n
  | .list es _ _ => .list (castList es)
  | .quote e _ _ => castEvaled e
  | .quasiquote e _ _ => castEvaled e
  | .unquote e _ _ => castEvaled e
  | .builtin n => .symbol ("<builtin " ++ n ++ ">")
  | .specialForm n => .symbol ("<special form " ++ n ++ ">")
  | .clausure _ _ _ => .symbol "<closure>"
  | .macroV _ _ _ => .symbol "<macro>"

/-- List helper for castEvaled. -/
def castList : List Expr → List Value
  | [] => []
  | e :: es => castEvaled e :: castList es

end

/-- One environment frame (env.rs, struct Env): parent frame id, variable
bindings, diagnostic depth, the local object store and the local preview
worklist.  The Rust HashMap of bindings becomes an association list whose
insert replaces any previous binding for the same name. -/
structure Frame where
  parent : Option Nat
  vars : List (String × Expr)
  depth : Nat
  models : List (Nat × Model)
  previewList : List Nat

/-- Global interpreter state: the arena of frames (a frame id is an index
into this list, standing in for Arc of Mutex of Env) and the process-wide
id counter of env.rs gen_id, which starts at 1. -/
structure State where
  frames : List Frame
  counter : Nat

/-- Replaces the element at an index of a list, leaving the list unchanged
when the index is out of range. -/
def listSet {α : Type} : List α → Nat → α → List α
  | [], _, _ => []
  | _ :: xs, 0, a => a :: xs
  | x :: xs, n + 1, a => x :: listSet xs n a

/-- Writes back one frame of the state. -/
def setFrame (σ : State) (i : Nat) (f : Frame) : State :=
  { σ with frames := listSet σ.frames i f }

/-- Mirrors Env::insert: bind name to value in the designated frame only,
replacing any existing binding of the same name (HashMap semantics). -/
def insertVar (σ : State) (i : Nat) (name : String) (v : Expr) : State :=
  match σ.frames[i]? with
  | none => σ
  | some f => setFrame σ i { f with vars := (name, v) :: f.vars.filter (fun p => p.1 != name) }

/-- Mirrors Env::get: local binding first, then the parent chain.  The
fuel bounds the chain walk; callers pass the frame count, which bounds the
length of any acyclic chain. -/
def envGet (fuel : Nat) (σ : State) (i : Nat) (name : String) : Option Expr :=
  match fuel with
  | 0 => none
  | fuel + 1 =>
    match σ.frames[i]? with
    | none => none
    | some f =>
      match (f.vars.find? (fun p => p.1 == name)).map (fun p => p.2) with
      | some v => some v
      | none =>
        match f.parent with
        | some p => envGet fuel σ p name
        | none => none

/-- Mirrors Env::get_model: local store first, then the parent chain. -/
def getModel (fuel : Nat) (σ : State) (i : Nat) (id : Nat) : Option Model :=
  match fuel with
  | 0 => none
  | fuel + 1 =>
    match σ.frames[i]? with
    | none => none
    | some f =>
      match (f.models.find? (fun p => p.1 == id)).map (fun p => p.2) with
      | some m => some m
      | none =>
        match f.parent with
        | some p => getModel fuel σ p id
        | none => none

/-- Mirrors Env::insert_model combined with gen_id: allocate a fresh id
from the global counter and store the object in the designated frame. -/
def insertModel (σ : State) (i : Nat) (m : Model) : State × Nat :=
  let id := σ.counter
  match σ.frames[i]? with
  | none => ({ σ with counter := σ.counter + 1 }, id)
  | some f =>
    ({ setFrame σ i { f with models := (id, m) :: f.models } with counter := σ.counter + 1 }, id)

/-- Mirrors Env::make_child: allocate a fresh empty frame whose parent is
the given frame; returns the new frame id. -/
def makeChild (σ : State) (parentId : Nat) : State × Nat :=
  let pd := match σ.frames[parentId]? with
    | some f => f.depth
    | none => 0
  ({ σ with frames := σ.frames ++ [⟨some parentId, [], pd + 1, [], []⟩] }, σ.frames.length)

/-- Mirrors Env::polys restricted to the ids: the mesh entries of the
designated frame store (their serialized payloads are external). -/
def statePolys (σ : State) (i : Nat) : List Nat :=
  match σ.frames[i]? with
  | none => []
  | some f =>
    (f.models.filter (fun p => match p.2 with | .mesh => true | _ => false)).map (fun p => p.1)

/-- Mirrors Env::preview_list. -/
def statePreviews (σ : State) (i : Nat) : List Nat :=
  match σ.frames[i]? with
  | none => []
  | some f => f.previewList

mutual

/-- Mirrors gc.rs mark_expr: a ModelRef marks its id; the recursion enters
List elements, Quote payloads and Closure bodies only.  The reachable set
is carried as a list whose membership is what matters. -/
def markExpr : Expr → List Nat → List Nat
  | .model id _ _, acc => id :: acc
  | .list elems _ _, acc => markList elems acc
  | .quote e _ _, acc => markExpr e acc
  | .clausure _ body _, acc => markExpr body acc
  | _, acc => acc

/-- List helper for markExpr, mirroring the for loop over elements. -/
def markList : List Expr → List Nat → List Nat
  | [], acc => acc
  | e :: es, acc => markList es (markExpr e acc)

end

/-- Marks the values of all bindings of one frame. -/
def markVars : List (String × Expr) → List Nat → List Nat
  | [], acc => acc
  | p :: ps, acc => markVars ps (markExpr p.2 acc)

/-- Mirrors gc.rs mark_reachable: mark every id reachable from the frame
bindings, add every preview-list id unconditionally, then recurse into the
parent frame accumulating into the same set.  The fuel bounds the parent
walk; collect_garbage passes the frame count. -/
def markReachable (fuel : Nat) (σ : State) (i : Nat) (acc : List Nat) : List Nat :=
  match fuel with
  | 0 => acc
  | fuel + 1 =>
    match σ.frames[i]? with
    | none => acc
    | some f =>
      let acc := markVars f.vars acc
      let acc := f.previewList ++ acc
      match f.parent with
      | some p => markReachable fuel σ p acc
      | none => acc

/-- Mirrors gc.rs sweep_unreachable combined with Env::retain_polys: drop
the object-store entries of the designated frame whose id was not
marked. -/
def sweepUnreachable (σ : State) (i : Nat) (reachable : List Nat) : State :=
  match σ.frames[i]? with
  | none => σ
  | some f =>
    setFrame σ i { f with models := f.models.filter (fun p => reachable.contains p.1) }

/-- Mirrors gc.rs collect_garbage: mark from the designated frame (walking
its parent chain), then sweep the store of that frame. -/
def collectGarbage (σ : State) (i : Nat) : State :=
  sweepUnreachable σ i (markReachable σ.frames.length σ i [])

/-- Mirrors the argument-count policy (eval.rs, enum ArgCount). -/
inductive ArgCount where
  | exact (n : Nat)
  | range (min max : Nat)
  | atLeast (n : Nat)
  | atMost (n : Nat)

/-- Mirrors ArgCount::contains. -/
def ArgCount.contains (r : ArgCount) (n : Nat) : Bool :=
  match r with
  | .exact c => n == c
  | .range lo hi => lo ≤ n && n ≤ hi
  | .atLeast lo => lo ≤ n
  | .atMost hi => n ≤ hi

/-- Mirrors eval.rs assert_arg_count, with the same error messages. -/
def assertArgCount (args : List Expr) (r : ArgCount) : Except String Unit :=
  if r.contains args.length then .ok () else
    match r with
    | .exact n =>
      .error ("expected " ++ toString n ++ " arguments, got " ++ toString args.length)
    | .range lo hi =>
      .error ("expected " ++ toString lo ++ " to " ++ toString hi ++ " arguments, got "
        ++ toString args.length)
    | .atLeast lo =>
      .error ("expected at least " ++ toString lo ++ " arguments, got " ++ toString args.length)
    | .atMost hi =>
      .error ("expected at most " ++ toString hi ++ " arguments, got " ++ toString args.length)

/-- Truncation of a rational toward zero, via the reduced numerator and
denominator.  Stands in for the integral part taken by the Rust cast of an
f64 to i64. -/
def ratTruncZ (q : Rat) : Int :=
  if 0 ≤ q.num then ((q.num.toNat / q.den : Nat) : Int)
  else -(((-q.num).toNat / q.den : Nat) : Int)

/-- Models the Rust cast of an f64 value to i64 (truncation toward zero,
saturating at the i64 bounds). -/
def doubleAsI64 (q : Rat) : Int :=
  let t := ratTruncZ q
  if t < -(2 ^ 63) then -(2 ^ 63)
  else if t > 2 ^ 63 - 1 then 2 ^ 63 - 1
  else t

/-- Fold of prim_add over the arguments (eval.rs prim_add try_fold). -/
def addFold (acc : Int) : List Expr → Except String Int
  | [] => .ok acc
  | a :: rest =>
    match a with
    | .integer v _ _ => addFold (acc + v) rest
    | .double v _ _ => addFold (acc + doubleAsI64 v) rest
    | _ => .error "add requires integer or double arguments"

/-- Mirrors eval.rs prim_add, the builtin bound to the symbol +. -/
def primAdd (args : List Expr) : Except String Expr :=
  match assertArgCount args (.atLeast 1) with
  | .error e => .error e
  | .ok _ => (addFold 0 args).map intE

/-- Fold of prim_sub over the tail arguments (eval.rs prim_sub try_fold). -/
def subFold (acc : Int) : List Expr → Except String Int
  | [] => .ok acc
  | a :: rest =>
    match a with
    | .integer v _ _ => subFold (acc - v) rest
    | .double v _ _ => subFold (acc - doubleAsI64 v) rest
    | _ => .error "sub requires integer or double arguments"

/-- Mirrors eval.rs prim_sub, the builtin bound to the symbol -. -/
def primSub (args : List Expr) : Except String Expr :=
  match assertArgCount args (.atLeast 1) with
  | .error e => .error e
  | .ok _ =>
    match args with
    | [] => .error "sub requires integer or double arguments"
    | head :: tail =>
      match head with
      | .integer v _ _ => (subFold v tail).map intE
      | .double v _ _ => (subFold (doubleAsI64 v) tail).map intE
      | _ => .error "sub requires integer or double arguments"

/-- Mirrors the integer comparison builtins of eval.rs (prim_lessthan and
its three siblings), parameterized by the comparison and its error
message. -/
def primCompare (cmp : Int → Int → Bool) (msg : String) (args : List Expr) :
    Except String Expr :=
  match assertArgCount args (.exact 2) with
  | .error e => .error e
  | .ok _ =>
    match args with
    | [a, b] =>
      match a, b with
      | .integer x _ _, .integer y _ _ => .ok (symE (if cmp x y then "#t" else "#f"))
      | _, _ => .error msg
    | _ => .error msg

/-- Dispatch of builtin values by registered name (the Rust side stores a
function pointer; default_env of eval.rs registers exactly these). -/
def builtinApply (name : String) (args : List Expr) : Except String Expr :=
  match name with
  | "+" => primAdd args
  | "-" => primSub args
  | "<" => primCompare (fun a b => a < b) "lessthan requires integer arguments" args
  | ">" => primCompare (fun a b => a > b) "morethan requires integer arguments" args
  | "<=" => primCompare (fun a b => a ≤ b) "lessthanoreq requires integer arguments" args
  | ">=" => primCompare (fun a b => a ≥ b) "morethanoreq requires integer arguments" args
  | "list" => .ok (.list args none false)
  | _ => .error ("unknown builtin: " ++ name)

/-- Extracts the parameter names of a lambda or macro parameter list.  The
Rust source unwraps with expect and panics on a non-symbol parameter; the
panic is modelled as an error value. -/
def extractArgNames (args : List Expr) (panicMsg : String) : Except String (List String) :=
  match args with
  | [] => .ok []
  | a :: rest =>
    match a with
    | .symbol n _ _ => (extractArgNames rest panicMsg).map (fun ns => n :: ns)
    | _ => .error panicMsg

/-- Binds a list of name-expression pairs without evaluating them (the
macro-application loop of eval_list). -/
def bindRaw (σ : State) (ν : Nat) : List (String × Expr) → State
  | [] => σ
  | (n, v) :: rest => bindRaw (insertVar σ ν n v) ν rest

/-- Type of the recursive evaluation callback threaded through the
helpers of the evaluator: each helper below mirrors one Rust function of
eval.rs and receives the (fuel-decremented) eval as the parameter ev. -/
abbrev EvalFn := Expr → Nat → State → State × Except String Expr

/-- Mirrors eval.rs eval_args: evaluate the argument expressions left to
right in the callers environment, stopping at the first error. -/
def evalArgs (ev : EvalFn) : List Expr → Nat → State → State × Except String (List Expr)
  | [], _, σ => (σ, .ok [])
  | a :: rest, ρ, σ =>
    match ev a ρ σ with
    | (σ₁, .error e) => (σ₁, .error e)
    | (σ₁, .ok v) =>
      match evalArgs ev rest ρ σ₁ with
      | (σ₂, .error e) => (σ₂, .error e)
      | (σ₂, .ok vs) => (σ₂, .ok (v :: vs))

/-- The parameter-binding loop of closure application: evaluate each
zipped argument in the callers environment and insert it into the new
frame, in order. -/
def bindParams (ev : EvalFn) : List (String × Expr) → Nat → Nat → State →
    State × Except String Unit
  | [], _, _, σ => (σ, .ok ())
  | (p, argE) :: rest, ν, ρ, σ =>
    match ev argE ρ σ with
    | (σ₁, .error e) => (σ₁, .error e)
    | (σ₁, .ok v) => bindParams ev rest ν ρ (insertVar σ₁ ν p v)

/-- The closure-application branch of eval_list: a fresh child frame of
the captured environment, the formal parameters zipped with the actual
argument expressions (the shorter list wins), each argument evaluated in
the callers environment, then the body evaluated in the new frame. -/
def applyClosure (ev : EvalFn) (params : List String) (body : Expr) (cenv : Nat)
    (argExprs : List Expr) (ρ : Nat) (σ : State) : State × Except String Expr :=
  let σν := makeChild σ cenv
  match bindParams ev (params.zip argExprs) σν.2 ρ σν.1 with
  | (σ₂, .error e) => (σ₂, .error e)
  | (σ₂, .ok _) => ev body σν.2 σ₂

/-- The macro-application branch of eval_list: a fresh child frame of the
macro-definition environment, parameters bound to the unevaluated argument
expressions, the body evaluated there to an expansion, which is then
evaluated in the original caller environment. -/
def applyMacro (ev : EvalFn) (params : List String) (body : Expr) (menv : Nat)
    (argExprs : List Expr) (ρ : Nat) (σ : State) : State × Except String Expr :=
  let σν := makeChild σ menv
  let σ₂ := bindRaw σν.1 σν.2 (params.zip argExprs)
  match ev body σν.2 σ₂ with
  | (σ₃, .error e) => (σ₃, .error e)
  | (σ₃, .ok expansion) => ev expansion ρ σ₃

/-- Mirrors eval.rs eval_define_impl.  In the list arm the source builds a
child environment and a closure and then calls as_symbol on the list
itself, which necessarily fails with the Not-a-symbol error; this is
reproduced. -/
def evalDefineImpl (ev : EvalFn) (elements : List Expr) (ρ : Nat) (σ : State) :
    State × Except String Expr :=
  match elements with
  | [_, spec, value] =>
    match spec with
    | .symbol name _ _ =>
      match ev value ρ σ with
      | (σ₁, .error e) => (σ₁, .error e)
      | (σ₁, .ok v) => (insertVar σ₁ ρ name v, .ok v)
    | .list args _ _ =>
      let σν := makeChild σ ρ
      match extractArgNames args "panic: Lambda argument is not a symbol" with
      | .error e => (σν.1, .error e)
      | .ok _ => (σν.1, .error "Not a symbol")
    | _ => (σ, .error "define requires a symbol as an argument")
  | _ => (σ, .error "panic: index out of bounds")

/-- Mirrors eval.rs eval_define: the sugared form with a list in second
position is rewritten to a define of a lambda before falling into
eval_define_impl; metadata of the rebuilt nodes is copied from the sugared
list exactly as in the source. -/
def evalDefine (ev : EvalFn) (elements : List Expr) (ρ : Nat) (σ : State) :
    State × Except String Expr :=
  match assertArgCount elements (.exact 3) with
  | .error e => (σ, .error e)
  | .ok _ =>
    match elements with
    | [d, spec, valOrBody] =>
      match spec with
      | .list fnAndArgs lf tf =>
        match fnAndArgs with
        | [] => (σ, .error "panic: index out of bounds")
        | name :: fnArgs =>
          let lam := Expr.list [Expr.symbol "lambda" lf false,
            Expr.list fnArgs lf tf, valOrBody] lf tf
          evalDefineImpl ev [d, name, lam] ρ σ
      | _ => evalDefineImpl ev elements ρ σ
    | _ => (σ, .error "define requires a list or a symbol as an argument")

/-- Mirrors eval.rs eval_defmacro: the macro value captures the defining
environment itself (no child frame) and is bound under its name. -/
def evalDefmacro (elements : List Expr) (ρ : Nat) (σ : State) :
    State × Except String Expr :=
  match assertArgCount elements (.exact 3) with
  | .error e => (σ, .error e)
  | .ok _ =>
    match elements with
    | [_, spec, body] =>
      match spec with
      | .list nameAndArgs _ _ =>
        match nameAndArgs with
        | [] => (σ, .error "defmacro requires a name")
        | nameE :: margs =>
          match asSymbol nameE with
          | .error e => (σ, .error e)
          | .ok macroName =>
            match extractArgNames margs "panic: Macro argument is not a symbol" with
            | .error e => (σ, .error e)
            | .ok argnames =>
              let m := Expr.macroV argnames body ρ
              (insertVar σ ρ macroName m, .ok m)
      | _ => (σ, .error "defmacro requires a name and argument list")
    | _ => (σ, .error "defmacro requires a name and argument list")

/-- Mirrors eval.rs eval_lambda: a closure value whose captured
environment is a fresh child frame of the defining environment. -/
def evalLambda (elements : List Expr) (ρ : Nat) (σ : State) :
    State × Except String Expr :=
  match assertArgCount elements (.exact 3) with
  | .error e => (σ, .error e)
  | .ok _ =>
    match elements with
    | [_, spec, body] =>
      match spec with
      | .list args _ _ =>
        let σν := makeChild σ ρ
        match extractArgNames args "panic: Lambda argument is not a symbol" with
        | .error e => (σν.1, .error e)
        | .ok argnames => (σν.1, .ok (.clausure argnames body σν.2))
      | _ => (σ, .error "lambda requires a list as an argument")
    | _ => (σ, .error "lambda requires a list as an argument")

/-- The binding loop of eval_let: every binding must be a two-element list
whose head is a symbol; the value expression is evaluated in the new
frame, so later bindings see earlier ones. -/
def letBindLoop (ev : EvalFn) : List Expr → Nat → State → State × Except String Unit
  | [], _, σ => (σ, .ok ())
  | b :: rest, ν, σ =>
    match b with
    | .list [nameE, valE] _ _ =>
      match asSymbol nameE with
      | .error e => (σ, .error e)
      | .ok name =>
        match ev valE ν σ with
        | (σ₁, .error e) => (σ₁, .error e)
        | (σ₁, .ok v) => letBindLoop ev rest ν (insertVar σ₁ ν name v)
    | _ => (σ, .error "Invalid let binding format")

/-- Mirrors eval.rs eval_let: one child frame for the whole form; each
binding value is evaluated in that frame (sequential semantics) and the
body is evaluated there as well. -/
def evalLet (ev : EvalFn) (elements : List Expr) (ρ : Nat) (σ : State) :
    State × Except String Expr :=
  match assertArgCount elements (.exact 3) with
  | .error e => (σ, .error e)
  | .ok _ =>
    match elements with
    | [_, spec, body] =>
      match spec with
      | .list bindings _ _ =>
        let σν := makeChild σ ρ
        match letBindLoop ev bindings σν.2 σν.1 with
        | (σ₂, .error e) => (σ₂, .error e)
        | (σ₂, .ok _) => ev body σν.2 σ₂
      | _ => (σ, .error "let requires a list of bindings")
    | _ => (σ, .error "let requires a list of bindings")

/-- Mirrors eval.rs eval_if: the condition is evaluated first; only a
symbol value is accepted, any symbol other than the false literal selects
the then branch, and only the selected branch is evaluated. -/
def evalIf (ev : EvalFn) (elements : List Expr) (ρ : Nat) (σ : State) :
    State × Except String Expr :=
  match assertArgCount elements (.exact 4) with
  | .error e => (σ, .error e)
  | .ok _ =>
    match elements with
    | [_, c, t, f] =>
      match ev c ρ σ with
      | (σ₁, .error m) => (σ₁, .error m)
      | (σ₁, .ok cond) =>
        match cond with
        | .symbol name _ _ =>
          if name != "#f" then ev t ρ σ₁ else ev f ρ σ₁
        | _ => (σ₁, .error "First argument of if must be a boolean")
    | _ => (σ, .error "unreachable: arity checked")

mutual

/-- Mirrors eval.rs eval_quasiquote with its explicit nesting level: an
unquote at level 1 evaluates its payload, a deeper unquote is preserved
with its payload processed at the decremented level, a nested quasiquote
increments the level, and lists are walked element-wise at the same
level. -/
def evalQuasiquote (ev : EvalFn) : Expr → Nat → Nat → State → State × Except String Expr
  | .unquote inner loc tn, ρ, level, σ =>
    if level == 1 then ev inner ρ σ
    else
      match evalQuasiquote ev inner ρ (level - 1) σ with
      | (σ₁, .error m) => (σ₁, .error m)
      | (σ₁, .ok v) => (σ₁, .ok (.unquote v loc tn))
  | .quasiquote inner loc tn, ρ, level, σ =>
    match evalQuasiquote ev inner ρ (level + 1) σ with
    | (σ₁, .error m) => (σ₁, .error m)
    | (σ₁, .ok v) => (σ₁, .ok (.quasiquote v loc tn))
  | .list elems loc tn, ρ, level, σ =>
    match quasiList ev elems ρ level σ with
    | (σ₁, .error m) => (σ₁, .error m)
    | (σ₁, .ok vs) => (σ₁, .ok (.list vs loc tn))
  | other, _, _, σ => (σ, .ok other)

/-- Element-wise walk of a list under quasiquote, preserving the nesting
level. -/
def quasiList (ev : EvalFn) : List Expr → Nat → Nat → State → State × Except String (List Expr)
  | [], _, _, σ => (σ, .ok [])
  | e :: rest, ρ, level, σ =>
    match evalQuasiquote ev e ρ level σ with
    | (σ₁, .error m) => (σ₁, .error m)
    | (σ₁, .ok v) =>
      match quasiList ev rest ρ level σ₁ with
      | (σ₂, .error m) => (σ₂, .error m)
      | (σ₂, .ok vs) => (σ₂, .ok (v :: vs))

end

/-- Dispatch of the special forms registered by eval.rs (list?, car, cdr,
null?); each evaluates its single argument itself. -/
def spApply (ev : EvalFn) (name : String) (args : List Expr) (ρ : Nat) (σ : State) :
    State × Except String Expr :=
  match assertArgCount args (.exact 1) with
  | .error e => (σ, .error e)
  | .ok _ =>
    match args with
    | [a] =>
      match ev a ρ σ with
      | (σ₁, .error e) => (σ₁, .error e)
      | (σ₁, .ok v) =>
        match name with
        | "list?" =>
          match v with
          | .list _ _ _ => (σ₁, .ok (symE "#t"))
          | _ => (σ₁, .ok (symE "#f"))
        | "car" =>
          match v with
          | .list [] _ _ => (σ₁, .error "Cannot get first element of empty list")
          | .list (h :: _) _ _ => (σ₁, .ok h)
          | _ => (σ₁, .error "first expects a list argument")
        | "cdr" =>
          match v with
          | .list [] loc tn => (σ₁, .ok (.list [] loc tn))
          | .list (_ :: rest) loc tn => (σ₁, .ok (.list rest loc tn))
          | _ => (σ₁, .error "rest expects a list argument")
        | "null?" =>
          match v with
          | .list [] _ _ => (σ₁, .ok (symE "#t"))
          | .list (_ :: _) _ _ => (σ₁, .ok (symE "#f"))
          | _ => (σ₁, .ok (symE "#f"))
        | _ => (σ₁, .error ("unknown special form: " ++ name))
    | _ => (σ, .error "unreachable: arity checked")

/-- Mirrors eval.rs eval_list: the empty list is a value; a literal
special-form head symbol dispatches without evaluating the head; otherwise
the head is evaluated and applied as builtin, special form, closure or
macro. -/
def evalList (ev : EvalFn) (elements : List Expr) (ρ : Nat) (σ : State) :
    State × Except String Expr :=
  match elements with
  | [] => (σ, .ok (lstE []))
  | first :: rest =>
    if isSymbol first "lambda" then evalLambda elements ρ σ
    else if isSymbol first "define" then evalDefine ev elements ρ σ
    else if isSymbol first "if" then evalIf ev elements ρ σ
    else if isSymbol first "let" then evalLet ev elements ρ σ
    else if isSymbol first "defmacro" then evalDefmacro elements ρ σ
    else
      match ev first ρ σ with
      | (σ₁, .error e) => (σ₁, .error e)
      | (σ₁, .ok head) =>
        match head with
        | .builtin name =>
          match evalArgs ev rest ρ σ₁ with
          | (σ₂, .error e) => (σ₂, .error e)
          | (σ₂, .ok vals) => (σ₂, builtinApply name vals)
        | .specialForm name => spApply ev name rest ρ σ₁
        | .clausure params body cenv => applyClosure ev params body cenv rest ρ σ₁
        | .macroV params body menv => applyMacro ev params body menv rest ρ σ₁
        | _ => (σ₁, .error "First element of list is not a function, special form, or macro")

/-- Mirrors eval.rs eval.  The fuel is decremented once per eval entry and
the decremented evaluator is passed to the helpers as their recursive
callback; it stands in for the unbounded recursion of the Rust evaluator,
with fuel exhaustion reported as an error. -/
def eval : Nat → Expr → Nat → State → State × Except String Expr
  | 0, _, _, σ => (σ, .error "out of fuel")
  | fuel + 1, e, ρ, σ =>
    match e with
    | .symbol name _ _ =>
      match envGet σ.frames.length σ ρ name with
      | some v => (σ, .ok v)
      | none => (σ, .error ("Undefined symbol: " ++ name))
    | .integer v _ _ => (σ, .ok (intE v))
    | .double v _ _ => (σ, .ok (dblE v))
    | .list elements _ _ => evalList (eval fuel) elements ρ σ
    | .string v _ _ => (σ, .ok (strE v))
    | .model id _ _ => (σ, .ok (mdlE id))
    | .quote inner _ _ => (σ, .ok inner)
    | .quasiquote inner _ _ => evalQuasiquote (eval fuel) inner ρ 1 σ
    | .unquote _ _ _ => (σ, .error "Unquote can only be used inside a quasiquote")
    | other => (σ, .ok other)

/-- The accumulation loop of eval.rs eval_exprs: the last result starts as
the empty list and every expression is evaluated in sequence, each result
overwriting the previous one while the state threads through. -/
def runAll (fuel : Nat) (exprs : List Expr) (ρ : Nat) (σ : State) :
    State × Except String Expr :=
  exprs.foldl (fun acc e => eval fuel e ρ acc.1) (σ, .ok (lstE []))

/-- Mirrors eval.rs eval_exprs: run the loop, then read the mesh store and
the preview list of the given frame and bundle them with the cast of the
last result. -/
def evalExprs (fuel : Nat) (exprs : List Expr) (ρ : Nat) (σ : State) :
    State × Except String Evaled :=
  let r := runAll fuel exprs ρ σ
  (r.1, r.2.map (fun e => ⟨castEvaled e, statePolys r.1 ρ, statePreviews r.1 ρ⟩))

/-- The root frame produced by eval.rs default_env, holding the builtins
and special forms registered in eval.rs itself (the geometry primitives of
cadprims.rs are external to the language core). -/
def defaultFrame : Frame :=
  ⟨none,
    [("+", .builtin "+"), ("-", .builtin "-"), ("<", .builtin "<"), (">", .builtin ">"),
      ("<=", .builtin "<="), (">=", .builtin ">="), ("list", .builtin "list"),
      ("list?", .specialForm "list?"), ("car", .specialForm "car"),
      ("cdr", .specialForm "cdr"), ("null?", .specialForm "null?")],
    0, [], []⟩

/-- A fresh interpreter session: the root frame and the id counter at its
initial value 1. -/
def initState : State := ⟨[defaultFrame], 1⟩

/-- Numeric test on expressions: an Integer or a Double. -/
def isNumeric : Expr → Bool
  | .integer _ _ _ => true
  | .double _ _ _ => true
  | _ => false

/-- The script of test_rec: a recursive fib through define sugar. -/
def fibDef : Expr :=
  lstE [symE "define", lstE [symE "fib", symE "n"],
    lstE [symE "if", lstE [symE "<", symE "n", intE 2], symE "n",
      lstE [symE "+",
        lstE [symE "fib", lstE [symE "-", symE "n", intE 1]],
        lstE [symE "fib", lstE [symE "-", symE "n", intE 2]]]]]

/-- The script binding x to 42 used by the quasiquote examples. -/
def defX : Expr := lstE [symE "define", symE "x", intE 42]

/-- A run whose first top-level expression fails (undefined symbol), while
the remaining two define a and read it back. -/
def c1Exprs : List Expr :=
  [symE "nosuch", lstE [symE "define", symE "a", intE 1], symE "a"]

/-- Caller and captured environments disagree on b: frame 0 is the caller
(b bound to 2) and frame 1 is the environment captured by the closure f
(b bound to 1). -/
def callerState : State :=
  ⟨[⟨none, [("b", intE 2), ("f", .clausure ["x"] (symE "x") 1)], 0, [], []⟩,
    ⟨none, [("b", intE 1)], 0, [], []⟩], 1⟩

/-- Caller and captured environments disagree on c: the closure g has an
empty parameter list and its body reads c from its captured frame 1. -/
def capturedState : State :=
  ⟨[⟨none, [("c", intE 4), ("g", .clausure [] (symE "c") 1)], 0, [], []⟩,
    ⟨none, [("c", intE 9)], 0, [], []⟩], 1⟩

/-- The environment of the gc.rs unit test: frame 0 stores two models, id
1 referenced only from the body of the bound closure use_mesh (whose
captured environment is the unrelated empty frame 1), id 2 present only in
the preview list. -/
def gcState (m₁ m₂ : Model) : State :=
  ⟨[⟨none, [("use_mesh", .clausure ["x"] (lstE [symE "list", mdlE 1]) 1)], 0,
      [(1, m₁), (2, m₂)], [2]⟩,
    ⟨none, [], 0, [], []⟩], 3⟩

/-- Mirrors vars_mut().clear() on one frame. -/
def clearVars (σ : State) (i : Nat) : State :=
  match σ.frames[i]? with
  | none => σ
  | some f => setFrame σ i { f with vars := [] }

/-- A store whose only reference to model 1 sits inside a quasiquote
payload bound in the frame. -/
def qqState (m : Model) : State :=
  ⟨[⟨none, [("q", Expr.quasiquote (mdlE 1) none false)], 0, [(1, m)], []⟩], 2⟩

/-- A store whose only reference to model 1 sits inside an unquote payload
bound in the frame. -/
def uqState (m : Model) : State :=
  ⟨[⟨none, [("u", Expr.unquote (mdlE 1) none false)], 0, [(1, m)], []⟩], 2⟩

/-- A store whose only reference to model 1 sits inside a macro body bound
in the frame. -/
def mcState (m : Model) : State :=
  ⟨[⟨none, [("m", .macroV [] (mdlE 1) 0)], 0, [(1, m)], []⟩], 2⟩

/-- A store whose only reference to model 1 is a binding of the closure
captured environment (frame 1), which is not on the parent chain of the
collected frame 0; the closure body itself does not mention the id. -/
def capState (m : Model) : State :=
  ⟨[⟨none, [("f", .clausure [] (lstE []) 1)], 0, [(1, m)], []⟩,
    ⟨none, [("v", mdlE 1)], 0, [], []⟩], 2⟩

/-- The error of every non-numeric argument of prim_add. -/
lemma addFold_error_of_mem (args : List Expr) (a : Expr) (acc : Int)
    (hmem : a ∈ args) (hnum : isNumeric a = false) :
    addFold acc args = .error "add requires integer or double arguments" := by
  induction args generalizing acc with
  | nil => cases hmem
  | cons hd tl ih =>
    rcases List.mem_cons.mp hmem with h | h
    · subst h
      cases a <;> simp_all [isNumeric, addFold]
    · cases hd <;> simp_all [addFold]


/-- The error of every non-numeric tail argument of prim_sub. -/
lemma subFold_error_of_mem (args : List Expr) (a : Expr) (acc : Int)
    (hmem : a ∈ args) (hnum : isNumeric a = false) :
    subFold acc args = .error "sub requires integer or double arguments" := by
  induction args generalizing acc with
  | nil => cases hmem
  | cons hd tl ih =>
    rcases List.mem_cons.mp hmem with h | h
    · subst h
      cases a <;> simp_all [isNumeric, subFold]
    · cases hd <;> simp_all [subFold]

/-- Mapping intE over an Except can only succeed with an integer result. -/
lemma except_map_intE_ok (x : Except String Int) (r : Expr) (h : x.map intE = .ok r) :
    ∃ n : Int, r = intE n := by
  cases x with
  | error e => exact Except.noConfusion h
  | ok n =>
    refine ⟨n, ?_⟩
    have h2 : Except.ok (intE n) = (Except.ok r : Except String Expr) := h
    exact (Except.ok.inj h2).symm

/-- A successful prim_add always yields an integer expression. -/
lemma primAdd_ok_integer (args : List Expr) (r : Expr) (h : primAdd args = .ok r) :
    ∃ n : Int, r = intE n := by
  unfold primAdd at h
  cases hA : assertArgCount args (.atLeast 1) <;> rw [hA] at h
  · cases h
  exact except_map_intE_ok _ _ h

/-- A successful prim_sub always yields an integer expression. -/
lemma primSub_ok_integer (args : List Expr) (r : Expr) (h : primSub args = .ok r) :
    ∃ n : Int, r = intE n := by
  unfold primSub at h
  cases hA : assertArgCount args (.atLeast 1) <;> rw [hA] at h
  · cases h
  cases args with
  | nil => cases h
  | cons hd tl =>
    cases hd with
    | integer v l t => exact except_map_intE_ok _ _ h
    | double v l t => exact except_map_intE_ok _ _ h
    | symbol a b c => cases h
    | list a b c => cases h
    | string a b c => cases h
    | model a b c => cases h
    | quote a b c => cases h
    | quasiquote a b c => cases h
    | unquote a b c => cases h
    | builtin a => cases h
    | specialForm a => cases h
    | clausure a b c => cases h
    | macroV a b c => cases h

/-- Nonempty argument lists pass the at-least-one arity gate. -/
lemma assertArgCount_atLeast_one (args : List Expr) (h : args ≠ []) :
    assertArgCount args (.atLeast 1) = .ok () := by
  have : 1 ≤ args.length := List.length_pos.mpr h
  simp [assertArgCount, ArgCount.contains, this]

/-- Truncation toward zero is odd: negating the rational negates the
truncated integral part. -/
lemma ratTruncZ_neg (q : Rat) : ratTruncZ (-q) = -(ratTruncZ q) := by
  unfold ratTruncZ
  rw [Rat.neg_num, Rat.neg_den]
  rcases lt_trichotomy q.num 0 with h | h | h
  · have h1 : ¬ 0 ≤ q.num := by omega
    have h2 : 0 ≤ -q.num := by omega
    simp [h1, h2]
  · simp [h]
  · have h1 : 0 ≤ q.num := by omega
    have h2 : ¬ 0 ≤ -q.num := by omega
    simp [h1, h2]

/-- Truncation toward zero is the identity on integral rationals. -/
lemma ratTruncZ_intCast (z : Int) : ratTruncZ (z : Rat) = z := by
  unfold ratTruncZ
  rw [Rat.num_intCast, Rat.den_intCast]
  rcases le_or_lt 0 z with h | h
  · simp only [if_pos h, Nat.div_one]
    omega
  · have h1 : ¬ 0 ≤ z := by omega
    simp only [if_neg h1, Nat.div_one]
    omega

/-- C10: the builtins + and - always return an Integer; every Double
argument is converted by truncation toward zero before the fold, so
adding 1.5 and 1.5 yields the integer 2 and subtracting -1.5 from 0
yields 1; truncation is toward zero (odd, identity on integers); and any
non-numeric argument anywhere in the list yields the uniform error. -/
theorem builtin_add_sub_integer_truncation :
    (∀ args r, primAdd args = .ok r → ∃ n : Int, r = intE n)
  ∧ (∀ args r, primSub args = .ok r → ∃ n : Int, r = intE n)
  ∧ primAdd [dblE (mkRat 3 2), dblE (mkRat 3 2)] = .ok (intE 2)
  ∧ primSub [intE 0, dblE (mkRat (-3) 2)] = .ok (intE 1)
  ∧ (∀ q : Rat, ratTruncZ (-q) = -(ratTruncZ q))
  ∧ (∀ z : Int, ratTruncZ (z : Rat) = z)
  ∧ (∀ args a, a ∈ args → isNumeric a = false →
      primAdd args = .error "add requires integer or double arguments")
  ∧ (∀ args a, a ∈ args → isNumeric a = false →
      primSub args = .error "sub requires integer or double arguments") := by
  refine ⟨primAdd_ok_integer, primSub_ok_integer, rfl, rfl, ratTruncZ_neg,
    ratTruncZ_intCast, ?_, ?_⟩
  · intro args a hmem hnum
    have hne : args ≠ [] := List.ne_nil_of_mem hmem
    unfold primAdd
    rw [assertArgCount_atLeast_one _ hne, addFold_error_of_mem args a 0 hmem hnum]
    rfl
  · intro args a hmem hnum
    have hne : args ≠ [] := List.ne_nil_of_mem hmem
    unfold primSub
    rw [assertArgCount_atLeast_one _ hne]
    cases args with
    | nil => cases hmem
    | cons hd tl =>
      rcases List.mem_cons.mp hmem with hcase | hcase
      · subst hcase
        cases a <;> first | rfl | simp_all [isNumeric]
      · cases hd with
        | integer v l t =>
          show Except.map intE (subFold v tl) = _
          rw [subFold_error_of_mem tl a v hcase hnum]
          rfl
        | double v l t =>
          show Except.map intE (subFold (doubleAsI64 v) tl) = _
          rw [subFold_error_of_mem tl a (doubleAsI64 v) hcase hnum]
          rfl
        | symbol n l t => rfl
        | list es l t => rfl
        | string s l t => rfl
        | model i l t => rfl
        | quote e l t => rfl
        | quasiquote e l t => rfl
        | unquote e l t => rfl
        | builtin n => rfl
        | specialForm n => rfl
        | clausure ps b en => rfl
        | macroV ps b en => rfl

/-- Witness for C10: a string argument makes prim_add fail with the
uniform non-numeric error. -/
theorem builtin_add_sub_integer_truncation_witness :
    primAdd [strE "mesh"] = .error "add requires integer or double arguments" :=
  builtin_add_sub_integer_truncation.2.2.2.2.2.2.1 [strE "mesh"] (strE "mesh")
    (List.mem_singleton_self _) rfl

/-- C1 counterexample: in a three-expression run whose first expression
fails with an undefined symbol, the run still returns the value of the
third expression (which reads the binding made by the second), so
evaluation did not short-circuit on the first error. -/
theorem run_sequence_no_short_circuit_cex :
    (eval 20 (symE "nosuch") 0 initState).2 = .error "Undefined symbol: nosuch"
  ∧ (evalExprs 20 c1Exprs 0 initState).2 = .ok ⟨.integer 1, [], []⟩ :=
  ⟨rfl, rfl⟩

/-- C1 amended: eval_exprs evaluates every top-level expression in order
regardless of earlier errors; the reported outcome is exactly the last
expression evaluated in the state accumulated by all earlier expressions,
and the snapshot reflects insertions made after a failure (the binding of
a from the second expression is present in the final state). -/
theorem run_sequence_evaluates_all :
    (∀ fuel es e ρ σ, runAll fuel (es ++ [e]) ρ σ = eval fuel e ρ (runAll fuel es ρ σ).1)
  ∧ envGet 1 (evalExprs 20 c1Exprs 0 initState).1 0 "a" = some (intE 1)
  ∧ (evalExprs 20 c1Exprs 0 initState).2 = .ok ⟨.integer 1, [], []⟩ := by
  refine ⟨?_, rfl, rfl⟩
  intro fuel es e ρ σ
  unfold runAll
  rw [List.foldl_append]
  rfl

/-- C3: preview membership and bindings (closure bodies included) are GC
roots: with model 1 referenced only from the body of a bound closure and
model 2 only in the preview list, collection keeps both; after clearing
all bindings, model 1 is swept (get_model finds nothing) while model 2
survives through the preview list. -/
theorem gc_roots_closure_body_and_preview (m₁ m₂ : Model) :
    getModel 2 (collectGarbage (gcState m₁ m₂) 0) 0 1 = some m₁
  ∧ getModel 2 (collectGarbage (gcState m₁ m₂) 0) 0 2 = some m₂
  ∧ getModel 2 (collectGarbage (clearVars (gcState m₁ m₂) 0) 0) 0 1 = none
  ∧ getModel 2 (collectGarbage (clearVars (gcState m₁ m₂) 0) 0) 0 2 = some m₂ :=
  ⟨rfl, rfl, rfl, rfl⟩

/-- C9: the mark phase recurses only into List elements, Quote payloads
and Closure bodies; Quasiquote and Unquote payloads, Macro bodies and the
closure captured environment are not traversed, so a model id referenced
only from such a place is swept even though a binding still refers to
it. -/
theorem gc_mark_recursion_scope :
    (∀ e l t acc, markExpr (.quote e l t) acc = markExpr e acc)
  ∧ (∀ es l t acc, markExpr (.list es l t) acc = markList es acc)
  ∧ (∀ ps b env acc, markExpr (.clausure ps b env) acc = markExpr b acc)
  ∧ (∀ e l t acc, markExpr (.quasiquote e l t) acc = acc)
  ∧ (∀ e l t acc, markExpr (.unquote e l t) acc = acc)
  ∧ (∀ ps b env acc, markExpr (.macroV ps b env) acc = acc)
  ∧ (∀ m, getModel 1 (collectGarbage (qqState m) 0) 0 1 = none)
  ∧ (∀ m, getModel 1 (collectGarbage (uqState m) 0) 0 1 = none)
  ∧ (∀ m, getModel 1 (collectGarbage (mcState m) 0) 0 1 = none)
  ∧ (∀ m, getModel 2 (collectGarbage (capState m) 0) 0 1 = none) := by
  refine ⟨?_, ?_, ?_, ?_, ?_, ?_, ?_, ?_, ?_, ?_⟩ <;> intros <;> rfl

/-- listSet preserves length. -/
lemma listSet_length {α : Type} (l : List α) (i : Nat) (a : α) :
    (listSet l i a).length = l.length := by
  induction l generalizing i with
  | nil => rfl
  | cons x xs ih => cases i <;> simp [listSet, ih]

/-- Reading the written index of listSet. -/
lemma listSet_getElem_self {α : Type} (l : List α) (i : Nat) (a : α) (h : i < l.length) :
    (listSet l i a)[i]? = some a := by
  induction l generalizing i with
  | nil => cases h
  | cons x xs ih =>
    cases i with
    | zero => simp [listSet]
    | succ j => simpa [listSet] using ih j (by simpa using h)

/-- Reading another index of listSet. -/
lemma listSet_getElem_ne {α : Type} (l : List α) (i j : Nat) (a : α) (h : j ≠ i) :
    (listSet l i a)[j]? = l[j]? := by
  induction l generalizing i j with
  | nil => cases i <;> rfl
  | cons x xs ih =>
    cases i with
    | zero => cases j with
      | zero => exact absurd rfl h
      | succ k => simp [listSet]
    | succ i2 => cases j with
      | zero => simp [listSet]
      | succ k => simpa [listSet] using ih i2 k (by omega)

/-- A successful optional index read is in range. -/
lemma getElem?_some_lt {α : Type} (l : List α) (i : Nat) (a : α) (h : l[i]? = some a) :
    i < l.length := by
  induction l generalizing i with
  | nil => simp at h
  | cons x xs ih =>
    cases i with
    | zero => simp
    | succ j =>
      simp only [List.getElem?_cons_succ] at h
      simpa using ih j h

/-- Overwriting the same index twice keeps only the last write. -/
lemma listSet_listSet {α : Type} (l : List α) (i : Nat) (a b : α) :
    listSet (listSet l i a) i b = listSet l i b := by
  induction l generalizing i with
  | nil => rfl
  | cons x xs ih => cases i <;> simp [listSet, ih]

/-- Filtering twice with one predicate is filtering once. -/
lemma filter_self_idem {α : Type} (p : α → Bool) (l : List α) :
    (l.filter p).filter p = l.filter p := by
  induction l with
  | nil => rfl
  | cons x xs ih =>
    cases hx : p x <;> simp [List.filter, hx, ih]

/-- The part of a frame inspected by the mark phase: bindings, preview
list and parent pointer (the object store is not read while marking). -/
def frameKey (f : Frame) : List (String × Expr) × List Nat × Option Nat :=
  (f.vars, f.previewList, f.parent)

/-- Marking depends only on the frameKey part of every frame: two states
whose frames agree on bindings, preview lists and parent pointers mark the
same set. -/
lemma markReachable_congr (σ₁ σ₂ : State)
    (h : ∀ j : Nat, (σ₁.frames[j]?).map frameKey = (σ₂.frames[j]?).map frameKey) :
    ∀ fuel i acc, markReachable fuel σ₁ i acc = markReachable fuel σ₂ i acc := by
  intro fuel
  induction fuel with
  | zero => intro i acc; rfl
  | succ n ih =>
    intro i acc
    have hj := h i
    unfold markReachable
    cases h1 : σ₁.frames[i]? with
    | none =>
      cases h2 : σ₂.frames[i]? with
      | none => rfl
      | some f2 => rw [h1, h2] at hj; cases hj
    | some f1 =>
      cases h2 : σ₂.frames[i]? with
      | none => rw [h1, h2] at hj; cases hj
      | some f2 =>
        rw [h1, h2] at hj
        have hk : frameKey f1 = frameKey f2 := Option.some.inj hj
        have hv : f1.vars = f2.vars := congrArg (fun p => p.1) hk
        have hp : f1.previewList = f2.previewList := congrArg (fun p => p.2.1) hk
        have hpar : f1.parent = f2.parent := congrArg (fun p => p.2.2) hk
        show (match f1.parent with
              | some p => markReachable n σ₁ p (f1.previewList ++ markVars f1.vars acc)
              | none => f1.previewList ++ markVars f1.vars acc)
            = (match f2.parent with
              | some p => markReachable n σ₂ p (f2.previewList ++ markVars f2.vars acc)
              | none => f2.previewList ++ markVars f2.vars acc)
        rw [hv, hp, hpar]
        cases f2.parent with
        | none => rfl
        | some p => exact ih p _

/-- Sweeping one frame changes neither the frame count nor any frameKey:
only the object store of the swept frame shrinks. -/
lemma collectGarbage_frames (σ : State) (i : Nat) :
    (collectGarbage σ i).frames.length = σ.frames.length
    ∧ ∀ j : Nat, ((collectGarbage σ i).frames[j]?).map frameKey
        = (σ.frames[j]?).map frameKey := by
  unfold collectGarbage sweepUnreachable
  cases h : σ.frames[i]? with
  | none => exact ⟨rfl, fun j => rfl⟩
  | some f =>
    constructor
    · simp [setFrame, listSet_length]
    · intro j
      by_cases hji : j = i
      · subst hji
        have hlt : j < σ.frames.length := getElem?_some_lt _ _ _ h
        simp only [setFrame]
        rw [listSet_getElem_self _ _ _ hlt, h]
        rfl
      · simp only [setFrame]
        rw [listSet_getElem_ne _ _ _ _ hji]

/-- Reading sweepUnreachable at a present frame. -/
lemma sweepUnreachable_of_get (σ : State) (i : Nat) (r : List Nat) (f : Frame)
    (h : σ.frames[i]? = some f) :
    sweepUnreachable σ i r
      = setFrame σ i { f with models := f.models.filter (fun p => r.contains p.1) } := by
  unfold sweepUnreachable
  rw [h]

/-- Reading sweepUnreachable at a missing frame. -/
lemma sweepUnreachable_of_none (σ : State) (i : Nat) (r : List Nat)
    (h : σ.frames[i]? = none) : sweepUnreachable σ i r = σ := by
  unfold sweepUnreachable
  rw [h]

/-- C8: garbage collection is idempotent; with no intervening mutation the
second pass removes nothing, leaving the object stores exactly as after
the first pass. -/
theorem gc_idempotent (σ : State) (i : Nat) :
    collectGarbage (collectGarbage σ i) i = collectGarbage σ i := by
  obtain ⟨hlen, hkey⟩ := collectGarbage_frames σ i
  have hmark : markReachable (collectGarbage σ i).frames.length (collectGarbage σ i) i []
      = markReachable σ.frames.length σ i [] := by
    rw [hlen, markReachable_congr _ _ hkey σ.frames.length i []]
  show sweepUnreachable (collectGarbage σ i) i
      (markReachable (collectGarbage σ i).frames.length (collectGarbage σ i) i [])
    = collectGarbage σ i
  rw [hmark]
  cases h : σ.frames[i]? with
  | none =>
    have e1 : collectGarbage σ i = σ := sweepUnreachable_of_none σ i _ h
    rw [e1]
    exact sweepUnreachable_of_none σ i _ h
  | some f =>
    have hlt : i < σ.frames.length := getElem?_some_lt _ _ _ h
    have e1 : collectGarbage σ i
        = setFrame σ i { f with models :=
            (f.models.filter (fun p => (markReachable σ.frames.length σ i []).contains p.1)) } :=
      sweepUnreachable_of_get σ i _ f h
    rw [e1]
    have hget2 : (setFrame σ i { f with models :=
        (f.models.filter (fun p => (markReachable σ.frames.length σ i []).contains p.1)) }).frames[i]?
        = some { f with models :=
            (f.models.filter (fun p => (markReachable σ.frames.length σ i []).contains p.1)) } := by
      simp only [setFrame]
      exact listSet_getElem_self _ _ _ hlt
    rw [sweepUnreachable_of_get _ i _ _ hget2]
    simp only [setFrame, listSet_listSet]
    rw [filter_self_idem]

/-- Symbol test on expressions (any symbol, regardless of name). -/
def isSymbolExpr : Expr → Bool
  | .symbol _ _ _ => true
  | _ => false

/-- Unfolding of evalIf on a four-element form, after the arity gate. -/
lemma evalIf_eq (fuel : Nat) (w c t f : Expr) (ρ : Nat) (σ : State) :
    evalIf (eval fuel) [w, c, t, f] ρ σ
    = (match eval fuel c ρ σ with
       | (σ₁, .error m) => (σ₁, .error m)
       | (σ₁, .ok cond) =>
         match cond with
         | .symbol name _ _ =>
           if name != "#f" then eval fuel t ρ σ₁ else eval fuel f ρ σ₁
         | _ => (σ₁, .error "First argument of if must be a boolean")) := rfl

/-- C2 counterexample: the integer 0 as the condition of if is not
truthy; the evaluation fails with the boolean type error instead of
selecting the then branch. -/
theorem if_nonsymbol_condition_cex :
    (eval 20 (lstE [symE "if", intE 0, intE 1, intE 2]) 0 initState).2
      = .error "First argument of if must be a boolean"
  ∧ (eval 20 (lstE [symE "if", intE 0, intE 1, intE 2]) 0 initState).2 ≠ .ok (intE 1) := by
  refine ⟨rfl, ?_⟩
  intro hcontra
  rw [show (eval 20 (lstE [symE "if", intE 0, intE 1, intE 2]) 0 initState).2
      = .error "First argument of if must be a boolean" from rfl] at hcontra
  exact Except.noConfusion hcontra

/-- C2 amended: evaluating (if c t f) first evaluates c; a symbol value
other than the false literal selects the then branch, the false literal
selects the else branch, only the selected branch is evaluated (the
result does not depend on the other branch), any non-symbol condition
value (including integers) is an error, and a failing condition
propagates its error. -/
theorem if_semantics (fuel : Nat) (li l : Option Nat) (ti tn : Bool)
    (c t f : Expr) (ρ : Nat) (σ : State) :
    (∀ σ₁ name lc tc, eval fuel c ρ σ = (σ₁, .ok (.symbol name lc tc)) → name ≠ "#f" →
        eval (fuel + 1) (.list [.symbol "if" li ti, c, t, f] l tn) ρ σ = eval fuel t ρ σ₁)
  ∧ (∀ σ₁ lc tc, eval fuel c ρ σ = (σ₁, .ok (.symbol "#f" lc tc)) →
        eval (fuel + 1) (.list [.symbol "if" li ti, c, t, f] l tn) ρ σ = eval fuel f ρ σ₁)
  ∧ (∀ σ₁ v, eval fuel c ρ σ = (σ₁, .ok v) → isSymbolExpr v = false →
        eval (fuel + 1) (.list [.symbol "if" li ti, c, t, f] l tn) ρ σ
        = (σ₁, .error "First argument of if must be a boolean"))
  ∧ (∀ σ₁ m, eval fuel c ρ σ = (σ₁, .error m) →
        eval (fuel + 1) (.list [.symbol "if" li ti, c, t, f] l tn) ρ σ = (σ₁, .error m)) := by
  have hd : eval (fuel + 1) (.list [.symbol "if" li ti, c, t, f] l tn) ρ σ
      = evalIf (eval fuel) [.symbol "if" li ti, c, t, f] ρ σ := rfl
  refine ⟨?_, ?_, ?_, ?_⟩
  · intro σ₁ name lc tc h hne
    rw [hd, evalIf_eq, h]
    exact if_pos (bne_iff_ne.mpr hne)
  · intro σ₁ lc tc h
    rw [hd, evalIf_eq, h]
    exact if_neg (by decide)
  · intro σ₁ v h hns
    rw [hd, evalIf_eq, h]
    cases v <;> first | rfl | simp [isSymbolExpr] at hns
  · intro σ₁ m h
    rw [hd, evalIf_eq, h]

/-- Witness for C2: a quoted true symbol as the condition selects the
then branch of a concrete if form. -/
theorem if_semantics_witness :
    eval 11 (lstE [symE "if", Expr.quote (symE "#t") none false, intE 1, intE 2]) 0 initState
      = eval 10 (intE 1) 0 initState :=
  (if_semantics 10 none none false false (Expr.quote (symE "#t") none false)
      (intE 1) (intE 2) 0 initState).1 initState "#t" none false rfl (by decide)

/-- C4: quasiquote evaluation tracks an explicit nesting level — an
unquote at level 1 evaluates its payload, an unquote at a deeper level is
preserved with its payload processed one level lower, a nested quasiquote
increments the level, lists are walked element-wise at the same level,
and evaluation of a quasiquote form starts at level 1; with x bound to
42, the quasiquoted list (1 ~x 3) evaluates to (1 42 3) and in the nested
form the inner ~x stays the symbol x while the outer ~x becomes 42. -/
theorem quasiquote_nesting :
    (∀ (ev : EvalFn) inner loc tn ρ σ,
        evalQuasiquote ev (.unquote inner loc tn) ρ 1 σ = ev inner ρ σ)
  ∧ (∀ (ev : EvalFn) inner loc tn ρ n σ,
        evalQuasiquote ev (.unquote inner loc tn) ρ (n + 2) σ
        = (match evalQuasiquote ev inner ρ (n + 1) σ with
           | (σ₁, .error m) => (σ₁, .error m)
           | (σ₁, .ok v) => (σ₁, .ok (.unquote v loc tn))))
  ∧ (∀ (ev : EvalFn) inner loc tn ρ level σ,
        evalQuasiquote ev (.quasiquote inner loc tn) ρ level σ
        = (match evalQuasiquote ev inner ρ (level + 1) σ with
           | (σ₁, .error m) => (σ₁, .error m)
           | (σ₁, .ok v) => (σ₁, .ok (.quasiquote v loc tn))))
  ∧ (∀ (ev : EvalFn) elems loc tn ρ level σ,
        evalQuasiquote ev (.list elems loc tn) ρ level σ
        = (match quasiList ev elems ρ level σ with
           | (σ₁, .error m) => (σ₁, .error m)
           | (σ₁, .ok vs) => (σ₁, .ok (.list vs loc tn))))
  ∧ (∀ fuel inner l t ρ σ, eval (fuel + 1) (.quasiquote inner l t) ρ σ
        = evalQuasiquote (eval fuel) inner ρ 1 σ)
  ∧ (evalExprs 50 [defX, Expr.quasiquote (lstE [intE 1,
        Expr.unquote (symE "x") none false, intE 3]) none false] 0 initState).2
      = .ok ⟨.list [.integer 1, .integer 42, .integer 3], [], []⟩
  ∧ (evalExprs 50 [defX, Expr.quasiquote (lstE [intE 1,
        Expr.quasiquote (lstE [intE 2, Expr.unquote (symE "x") none false]) none false,
        Expr.unquote (symE "x") none false]) none false] 0 initState).2
      = .ok ⟨.list [.integer 1, .list [.integer 2, .symbol "x"], .integer 42], [], []⟩ := by
  exact ⟨fun ev inner loc tn ρ σ => rfl, fun ev inner loc tn ρ n σ => rfl,
    fun ev inner loc tn ρ level σ => rfl, fun ev elems loc tn ρ level σ => rfl,
    fun fuel inner l t ρ σ => rfl, rfl, rfl⟩

/-- Zipping ignores appended extra entries on the right when the left
list is at most as long. -/
lemma zip_append_right {α β : Type} (ps : List α) (as bs : List β)
    (h : ps.length ≤ as.length) : ps.zip (as ++ bs) = ps.zip as := by
  induction ps generalizing as with
  | nil => simp
  | cons p ps2 ih =>
    cases as with
    | nil => simp at h
    | cons a as2 =>
      simp only [List.cons_append, List.zip_cons_cons]
      rw [ih as2 (by simpa using h)]

/-- Zipping ignores appended extra entries on the left when the right
list is at most as long. -/
lemma append_zip_left {α β : Type} (ps qs : List α) (as : List β)
    (h : as.length ≤ ps.length) : (ps ++ qs).zip as = ps.zip as := by
  induction ps generalizing as with
  | nil =>
    cases as with
    | nil => simp
    | cons a as2 => simp at h
  | cons p ps2 ih =>
    cases as with
    | nil => simp
    | cons a as2 =>
      simp only [List.cons_append, List.zip_cons_cons]
      rw [ih as2 (by simpa using h)]

/-- C5: closure application binds each formal parameter, in order, to its
argument evaluated in the callers environment; arity mismatches are
silently zipped away (extra arguments are dropped without even being
evaluated, extra parameters are left unbound so reading one fails with an
undefined symbol rather than an arity error), evaluation of the bound
arguments is eager and left to right, and the body runs in a fresh child
frame of the closure captured environment. -/
theorem closure_application_semantics :
    (∀ (ev : EvalFn) params body cenv args extra ρ σ, params.length ≤ args.length →
        applyClosure ev params body cenv (args ++ extra) ρ σ
        = applyClosure ev params body cenv args ρ σ)
  ∧ (∀ (ev : EvalFn) params more body cenv args ρ σ, args.length ≤ params.length →
        applyClosure ev (params ++ more) body cenv args ρ σ
        = applyClosure ev params body cenv args ρ σ)
  ∧ (eval 50 (lstE [lstE [symE "lambda", lstE [symE "x"], symE "x"], intE 1,
        lstE [symE "nosuch"]]) 0 initState).2 = .ok (intE 1)
  ∧ (eval 50 (lstE [lstE [symE "lambda", lstE [symE "a", symE "b"], symE "a"], intE 1])
        0 initState).2 = .ok (intE 1)
  ∧ (eval 50 (lstE [lstE [symE "lambda", lstE [symE "a", symE "b"], symE "b"], intE 1])
        0 initState).2 = .error "Undefined symbol: b"
  ∧ (eval 50 (lstE [lstE [symE "lambda", lstE [symE "p", symE "q"], symE "q"],
        lstE [symE "define", symE "t", intE 5], symE "t"]) 0 initState).2 = .ok (intE 5)
  ∧ (eval 50 (lstE [symE "f", symE "b"]) 0 callerState).2 = .ok (intE 2)
  ∧ (eval 50 (lstE [symE "g"]) 0 capturedState).2 = .ok (intE 9) := by
  refine ⟨?_, ?_, rfl, rfl, rfl, rfl, rfl, rfl⟩
  · intro ev params body cenv args extra ρ σ h
    unfold applyClosure
    rw [zip_append_right _ _ _ h]
  · intro ev params more body cenv args ρ σ h
    unfold applyClosure
    rw [append_zip_left _ _ _ h]

/-- Witness for C5: an appended extra argument does not change a concrete
one-parameter closure application. -/
theorem closure_application_semantics_witness :
    applyClosure (eval 10) ["x"] (symE "x") 0 ([intE 1] ++ [symE "boom"]) 0 initState
    = applyClosure (eval 10) ["x"] (symE "x") 0 [intE 1] 0 initState :=
  closure_application_semantics.1 (eval 10) ["x"] (symE "x") 0 [intE 1] [symE "boom"]
    0 initState (by decide)

set_option maxRecDepth 100000 in
set_option maxHeartbeats 16000000 in
/-- C6: the sugared define of a function is evaluated exactly as the
desugared define of a lambda (rewritten before the symbol/value case),
and recursion through the defined name works: fib of 10 is 55. -/
theorem define_desugar_and_recursion :
    (∀ (fuel : Nat) (ld : Option Nat) (td : Bool) (fname : String) (ln : Option Nat)
        (tnl : Bool) (args : List Expr) (lf : Option Nat) (tf : Bool) (body : Expr)
        (l : Option Nat) (t : Bool) (ρ : Nat) (σ : State),
        eval (fuel + 1) (.list [.symbol "define" ld td,
            .list (.symbol fname ln tnl :: args) lf tf, body] l t) ρ σ
        = eval (fuel + 1) (.list [.symbol "define" ld td, .symbol fname ln tnl,
            .list [.symbol "lambda" lf false, .list args lf tf, body] lf tf] l t) ρ σ)
  ∧ (evalExprs 1000 [fibDef, lstE [symE "fib", intE 10]] 0 initState).2
      = .ok ⟨.integer 55, [], []⟩ := by
  exact ⟨fun fuel ld td fname ln tnl args lf tf body l t ρ σ => rfl, rfl⟩

/-- C7: let has sequential semantics — a single child frame is created,
every binding value is evaluated in that frame (so later bindings see
earlier ones), the body is evaluated there, the caller frame is left
unbound; the standard example evaluates to 3. -/
theorem let_sequential_semantics :
    (∀ (fuel : Nat) (ll l : Option Nat) (tl tn : Bool) (bindings : List Expr)
        (lb : Option Nat) (tb : Bool) (body : Expr) (ρ : Nat) (σ : State),
        eval (fuel + 1) (.list [.symbol "let" ll tl, .list bindings lb tb, body] l tn) ρ σ
        = (let σν := makeChild σ ρ
           match letBindLoop (eval fuel) bindings σν.2 σν.1 with
           | (σ₂, .error e) => (σ₂, .error e)
           | (σ₂, .ok _) => eval fuel body σν.2 σ₂))
  ∧ (∀ (ev : EvalFn) nameE valE lb2 tb2 rest ν σ,
        letBindLoop ev (.list [nameE, valE] lb2 tb2 :: rest) ν σ
        = (match asSymbol nameE with
           | .error e => (σ, .error e)
           | .ok name =>
             match ev valE ν σ with
             | (σ₁, .error e) => (σ₁, .error e)
             | (σ₁, .ok v) => letBindLoop ev rest ν (insertVar σ₁ ν name v)))
  ∧ (eval 50 (lstE [symE "let",
        lstE [lstE [symE "a", intE 1], lstE [symE "b", lstE [symE "+", symE "a", intE 1]]],
        lstE [symE "+", symE "a", symE "b"]]) 0 initState).2 = .ok (intE 3)
  ∧ (evalExprs 50 [lstE [symE "let", lstE [lstE [symE "a", intE 0]], intE 1], symE "a"]
        0 initState).2 = .error "Undefined symbol: a" := by
  exact ⟨fun fuel ll l tl tn bindings lb tb body ρ σ => rfl,
    fun ev nameE valE lb2 tb2 rest ν σ => rfl, rfl, rfl⟩

end TryTauri
